import Mathlib

set_option maxRecDepth 8000

/-!
Verification development for the Ares decoder plugin layer.

The repository sources under scrutiny are the three decoder plugins
`src/decoders/base32_decoder.rs`, `src/decoders/base58_ripple_decoder.rs` and
`src/decoders/base64_decoder.rs`.  Their shared support code
(`decoders/interface.rs` with `check_string_success`, `decoders/crack_results.rs`
with `CrackResult`, and the `checkers` module) is referenced by these files but
is not part of the provided sources; those parts are modelled from the
specification and are marked as such in their doc comments.  The byte-level
codec primitives come from external crates (`data-encoding`'s `BASE32_NOPAD`,
`bs58` with the Ripple alphabet, and the `base64` crate's free `decode`
function of the 0.13-era API); they are embedded here following the documented
algorithms of those crates so that the plugin pipelines can be executed on
concrete inputs.
-/

namespace Ares

/-- Runs a per-character decode table over a list, failing on the first
character the table rejects.  This is the shape shared by all three codec
backends: every input symbol must be valid under the scheme's alphabet. -/
def mapVals (f : Char → Option Nat) : List Char → Option (List Nat)
  | [] => some []
  | c :: cs =>
    match f c, mapVals f cs with
    | some v, some vs => some (v :: vs)
    | _, _ => none

/-- Big-endian byte representation of a natural number in exactly `k` bytes
(the top bytes are zero when the number is small). -/
def natToBytesBE : Nat → Nat → List Nat
  | 0, _ => []
  | k + 1, n => natToBytesBE k (n / 256) ++ [n % 256]

/-- Fuel-driven minimal big-endian byte representation: no leading zero bytes,
and the empty list for zero.  The fuel only serves termination; `n` itself is
always enough fuel because each step divides by 256. -/
def natToBytesBEMinAux : Nat → Nat → List Nat
  | 0, _ => []
  | fuel + 1, n => if n = 0 then [] else natToBytesBEMinAux fuel (n / 256) ++ [n % 256]

/-- Minimal big-endian byte representation of a natural number. -/
def natToBytesBEMin (n : Nat) : List Nat := natToBytesBEMinAux n n

/-- Whether a byte is a UTF-8 continuation byte (`0x80..0xBF`). -/
def utf8Cont (b : Nat) : Bool := decide (0x80 ≤ b ∧ b ≤ 0xBF)

/-- Outcome of reading one UTF-8 sequence that starts at byte `b`: either a
decoded scalar value, or an error.  `extra` counts how many bytes beyond `b`
belong to the sequence (for an error, the maximal valid prefix beyond `b`,
matching Rust's "substitution of maximal subparts" policy used by
`String::from_utf8_lossy`). -/
inductive Utf8Step where
  | ok (scalar : Nat) (extra : Nat)
  | err (extra : Nat)

/-- Reads one UTF-8 sequence whose first byte is `b` and whose following bytes
are `rest`, per the Unicode well-formedness table (the same table Rust's
`core::str` validation implements). -/
def utf8Step (b : Nat) (rest : List Nat) : Utf8Step :=
  if b ≤ 0x7F then .ok b 0
  else if b < 0xC2 then .err 0
  else if b ≤ 0xDF then
    match rest with
    | b1 :: _ =>
      if utf8Cont b1 then .ok ((b - 0xC0) * 0x40 + (b1 - 0x80)) 1 else .err 0
    | [] => .err 0
  else if b ≤ 0xEF then
    match rest with
    | b1 :: rest1 =>
      if (if b = 0xE0 then 0xA0 else 0x80) ≤ b1 ∧ b1 ≤ (if b = 0xED then 0x9F else 0xBF) then
        match rest1 with
        | b2 :: _ =>
          if utf8Cont b2 then
            .ok ((b - 0xE0) * 0x1000 + (b1 - 0x80) * 0x40 + (b2 - 0x80)) 2
          else .err 1
        | [] => .err 1
      else .err 0
    | [] => .err 0
  else if b ≤ 0xF4 then
    match rest with
    | b1 :: rest1 =>
      if (if b = 0xF0 then 0x90 else 0x80) ≤ b1 ∧ b1 ≤ (if b = 0xF4 then 0x8F else 0xBF) then
        match rest1 with
        | b2 :: rest2 =>
          if utf8Cont b2 then
            match rest2 with
            | b3 :: _ =>
              if utf8Cont b3 then
                .ok ((b - 0xF0) * 0x40000 + (b1 - 0x80) * 0x1000 + (b2 - 0x80) * 0x40 + (b3 - 0x80)) 3
              else .err 2
            | [] => .err 2
          else .err 1
        | [] => .err 1
      else .err 0
    | [] => .err 0
  else .err 0

/-- Lossy UTF-8 decoding: each ill-formed sequence is replaced by the
replacement character U+FFFD, as Rust's `String::from_utf8_lossy` does.  The
fuel only serves termination; the list length is always enough fuel because
every step consumes at least the head byte. -/
def utf8DecodeLossyAux : Nat → List Nat → List Char
  | 0, _ => []
  | _, [] => []
  | fuel + 1, b :: rest =>
    match utf8Step b rest with
    | .ok v k => Char.ofNat v :: utf8DecodeLossyAux fuel (rest.drop k)
    | .err k => Char.ofNat 0xFFFD :: utf8DecodeLossyAux fuel (rest.drop k)

/-- Rust's `String::from_utf8_lossy(bytes).to_string()`. -/
def fromUtf8Lossy (bytes : List Nat) : String :=
  String.mk (utf8DecodeLossyAux bytes.length bytes)

/-- Strict UTF-8 decoding, failing on any ill-formed sequence. -/
def utf8DecodeStrictAux : Nat → List Nat → Option (List Char)
  | _, [] => some []
  | 0, _ :: _ => none
  | fuel + 1, b :: rest =>
    match utf8Step b rest with
    | .ok v k => (utf8DecodeStrictAux fuel (rest.drop k)).map (Char.ofNat v :: ·)
    | .err _ => none

/-- Rust's `String::from_utf8(bytes).ok()`. -/
def fromUtf8Strict (bytes : List Nat) : Option String :=
  (utf8DecodeStrictAux bytes.length bytes).map String.mk

/-- Modelled from the spec: the Plugin Descriptor of section 3.  The struct
`Decoder` lives in `decoders/interface.rs`, which is not among the provided
sources; its fields are the ones the spec lists and the three decoder files
initialize.  The Base32 initializer in this snapshot sets only `name`,
`description`, `link`, `tags` and `popularity`, so the remaining cost-model
fields carry defaults here. -/
structure Decoder where
  name : String
  description : String
  link : String
  tags : List String
  popularity : Float
  expected_runtime : Float := 0.01
  expected_success : Float := 1.0
  failure_runtime : Float := 0.01
  normalised_entropy : List Float := []

/-- Modelled from the spec: the Checker verdict of section 6 (`CheckResult`
from the `checkers` module, which is not among the provided sources).  It
carries the identified-as-plaintext flag, the matched description and the
checker's identity. -/
structure CheckResult where
  is_identified : Bool
  description : String
  checker_name : String

/-- Modelled from the spec: the external Checker of section 6, referentially
transparent from this layer's point of view, hence a plain function from the
candidate text to a verdict (`CheckerTypes::check` in the `checkers` module,
which is not among the provided sources). -/
abbrev Checker := String → CheckResult

/-- Modelled from the spec: the Outcome Record of section 3 (`CrackResult` from
`decoders/crack_results.rs`, which is not among the provided sources).  The
non-owning back-reference to the producing descriptor is modelled by the
descriptor's name; the candidate field is the spec's optional ordered sequence
of candidate strings; the verdict fields default to unset. -/
structure CrackResult where
  source_descriptor : String
  input_text : String
  unencrypted_text : Option (List String) := none
  is_identified : Bool := false
  matched_description : String := ""
  checker_name : String := ""

/-- Modelled from the spec: `CrackResult::new(descriptor, input_text)` of
section 4.4 constructs a record with no candidate and a default verdict. -/
def CrackResult.new (d : Decoder) (text : String) : CrackResult :=
  { source_descriptor := d.name, input_text := text }

/-- Modelled from the spec: the checker-merge operation of section 4.4, which
folds a verdict into an existing record without discarding the candidate text
already set and without altering `input_text` or `source_descriptor`. -/
def CrackResult.update_checker (r : CrackResult) (c : CheckResult) : CrackResult :=
  { r with
    is_identified := c.is_identified
    matched_description := c.description
    checker_name := c.checker_name }

/-- Modelled from the spec: `check_string_success` from
`decoders/interface.rs`, which is not among the provided sources.  Section 4.3
gives its two mandatory rules: reject an empty decoded text, and reject a
decoded text identical to the original input; otherwise keep. -/
def check_string_success (decoded_text : String) (original_text : String) : Bool :=
  if decoded_text = "" then false
  else if decoded_text = original_text then false
  else true

/-- Rust's `text.replace('=', "")` from the Base32 pipeline: it removes every
occurrence of the character anywhere in the string, not just trailing ones. -/
def removeEquals (text : String) : String :=
  String.mk (text.data.filter (fun c => c != '='))

/-- Value of a character under the RFC 4648 Base32 alphabet `A..Z2..7`, the
alphabet of `data-encoding`'s `BASE32_NOPAD`.  The crate consumes the UTF-8
bytes of the input; every alphabet symbol is a single ASCII byte and every
byte of a non-ASCII character lies outside the alphabet, so the per-character
table is observationally equivalent to the per-byte one. -/
def base32CharVal (c : Char) : Option Nat :=
  if 'A' ≤ c ∧ c ≤ 'Z' then some (c.toNat - 65)
  else if '2' ≤ c ∧ c ≤ '7' then some (c.toNat - 24)
  else none

/-- The `data-encoding` crate's `BASE32_NOPAD.decode`: every symbol must be in
the alphabet, the symbol count must be a possible encoding length (residues 1,
3 and 6 mod 8 are impossible), and the bits left over after the whole output
bytes must be zero (the crate checks trailing bits by default).  Decoding packs
the 5-bit symbol values MSB-first. -/
def base32DecodeBytes (chars : List Char) : Option (List Nat) :=
  match mapVals base32CharVal chars with
  | none => none
  | some vals =>
    let n := vals.length
    if n % 8 = 1 ∨ n % 8 = 3 ∨ n % 8 = 6 then none
    else
      let outLen := 5 * n / 8
      let total := vals.foldl (fun acc v => acc * 32 + v) 0
      let trailing := 5 * n - 8 * outLen
      if total % 2 ^ trailing = 0 then some (natToBytesBE outLen (total / 2 ^ trailing))
      else none

/-- The XRP Ledger Base58 alphabet used by `bs58::Alphabet::RIPPLE`. -/
def rippleAlphabet : List Char := "rpshnaf39wBUDNEGHJKLM4PQRST7VWXYZ2bcdeCg65jkm8oFqi1tuvAxyz".data

/-- Index of a character in an alphabet list. -/
def alphaIdx : List Char → Char → Option Nat
  | [], _ => none
  | a :: as, c => if c = a then some 0 else (alphaIdx as c).map (· + 1)

/-- Value of a character under the Ripple Base58 alphabet.  The `bs58` crate
rejects any byte above 127 and any byte not in the alphabet; both cases are
exactly the characters this table rejects (all alphabet symbols are ASCII, and
every byte of a non-ASCII character is above 127). -/
def rippleVal (c : Char) : Option Nat := alphaIdx rippleAlphabet c

/-- The `bs58` crate's `decode(..).with_alphabet(RIPPLE).into_vec()`: the input
is read as a big-endian base-58 number whose minimal big-endian byte
representation is the payload, preceded by one zero byte for every leading
zero-valued symbol (the alphabet's first character, here `r`). -/
def base58DecodeBytes (chars : List Char) : Option (List Nat) :=
  match mapVals rippleVal chars with
  | none => none
  | some vals =>
    some (List.replicate (chars.takeWhile (fun c => c = 'r')).length 0
      ++ natToBytesBEMin (vals.foldl (fun acc v => acc * 58 + v) 0))

/-- Value of a character under the standard Base64 alphabet `A..Za..z0..9+/`
(the `base64` crate's `STANDARD` character set; same ASCII argument as for the
other alphabets). -/
def base64SymVal (c : Char) : Option Nat :=
  if 'A' ≤ c ∧ c ≤ 'Z' then some (c.toNat - 65)
  else if 'a' ≤ c ∧ c ≤ 'z' then some (c.toNat - 71)
  else if '0' ≤ c ∧ c ≤ '9' then some (c.toNat - 48 + 52)
  else if c = '+' then some 62
  else if c = '/' then some 63
  else none

/-- Finishes the `base64` crate's suffix decode: `m` collected 6-bit symbol
values yield `6*m/8` whole bytes; 1 or 5 symbols cannot form a whole byte
partition and are an invalid length; the bits beyond the whole bytes must be
zero (the `STANDARD` config rejects nonzero trailing bits). -/
def base64SuffixFinish (acc : List Nat) : Option (List Nat) :=
  let m := acc.length
  if m % 4 = 1 then none
  else
    let outLen := 6 * m / 8
    let total := acc.foldl (fun a v => a * 64 + v) 0
    let trailing := 6 * m - 8 * outLen
    if total % 2 ^ trailing = 0 then some (natToBytesBE outLen (total / 2 ^ trailing))
    else none

/-- Scans the final (up to eight-symbol) stretch of a Base64 input the way the
`base64` crate's 0.13-era suffix decoder does: `=` is only legal at offsets 2
or 3 within a four-symbol quad, nothing but further `=` may follow a first
`=`, and every other character must be an alphabet symbol. -/
def base64Suffix : List Char → Nat → Bool → List Nat → Option (List Nat)
  | [], _, _, acc => base64SuffixFinish acc
  | c :: cs, i, sawPad, acc =>
    if c = '=' then
      if i % 4 < 2 then none
      else base64Suffix cs (i + 1) true acc
    else if sawPad then none
    else
      match base64SymVal c with
      | none => none
      | some v => base64Suffix cs (i + 1) sawPad (acc ++ [v])

/-- The `base64` crate's free function `decode` (`STANDARD` config, 0.13-era
API, the one the source calls): a total length of 1 or 5 mod 8 is an invalid
length; all input before the final stretch (the last `len % 8` symbols, or the
last 8 when the length is a multiple of 8) must be plain alphabet symbols and
decodes in whole 8-symbol/6-byte chunks; the final stretch may carry padding
and is handled by `base64Suffix`.  Decoding does not require padding to be
present, but rejects padding in an illegal position. -/
def base64Decode (chars : List Char) : Option (List Nat) :=
  let L := chars.length
  if L % 8 = 1 ∨ L % 8 = 5 then none
  else
    let skipN := if L % 8 = 0 then min 8 L else L % 8
    match mapVals base64SymVal (chars.take (L - skipN)) with
    | none => none
    | some vals =>
      match base64Suffix (chars.drop (L - skipN)) 0 false [] with
      | none => none
      | some sufBytes =>
        some (natToBytesBE (vals.length * 6 / 8) (vals.foldl (fun a v => a * 64 + v) 0)
          ++ sufBytes)

namespace Base32

/-- The descriptor built by `Decoder::<Base32Decoder>::new()` in
`base32_decoder.rs`. -/
def decoder : Decoder :=
  { name := "Base32"
    description := "Base32 is a group of binary-to-text encoding schemes that represent binary data (more specifically, a sequence of 8-bit bytes) in an ASCII string format by translating the data into a radix-32 representation."
    link := "https://en.wikipedia.org/wiki/Base32"
    tags := ["base32", "decoder", "base"]
    popularity := 0.8 }

/-- The helper of `base32_decoder.rs`: strip all padding characters, decode
with `BASE32_NOPAD`, and convert the bytes to text lossily. -/
def decode_base32_no_error_handling (text : String) : Option String :=
  match base32DecodeBytes (removeEquals text).data with
  | some bytes => some (fromUtf8Lossy bytes)
  | none => none

/-- The `crack` implementation of `base32_decoder.rs`: decode, run the shared
plausibility filter against the original input, and only on success invoke the
checker, record the single candidate, and merge the verdict. -/
def crack (text : String) (checker : Checker) : CrackResult :=
  match decode_base32_no_error_handling text with
  | none => CrackResult.new decoder text
  | some decoded_text =>
    if !(check_string_success decoded_text text) then CrackResult.new decoder text
    else
      CrackResult.update_checker
        { CrackResult.new decoder text with unencrypted_text := some [decoded_text] }
        (checker decoded_text)

end Base32

namespace Base58Ripple

/-- The descriptor built by `Decoder::<Base58RippleDecoder>::new()` in
`base58_ripple_decoder.rs`. -/
def decoder : Decoder :=
  { name := "base58_ripple"
    description := "Base58 is a group of binary-to-text encoding schemes that represent binary data (more specifically, a sequence of 8-bit bytes) in an ASCII string format by translating the data into a radix-32 representation."
    link := "https://en.wikipedia.org/wiki/Base58"
    tags := ["base58_ripple", "base58", "ripple", "cryptocurrency", "decoder", "base"]
    popularity := 0.8
    expected_runtime := 0.01
    expected_success := 0.7
    failure_runtime := 0.01
    normalised_entropy := [1.0, 10.0] }

/-- The helper of `base58_ripple_decoder.rs`: decode with the Ripple alphabet
and convert the bytes to text lossily. -/
def decode_base58_ripple_no_error_handling (text : String) : Option String :=
  match base58DecodeBytes text.data with
  | some bytes => some (fromUtf8Lossy bytes)
  | none => none

/-- The `crack` implementation of `base58_ripple_decoder.rs`.  The source
assigns the bare decoded string to `unencrypted_text`; with the spec's
sequence-shaped candidate field this is the one-candidate wrapping of
section 4.2 step 5. -/
def crack (text : String) (checker : Checker) : CrackResult :=
  match decode_base58_ripple_no_error_handling text with
  | none => CrackResult.new decoder text
  | some decoded_text =>
    if !(check_string_success decoded_text text) then CrackResult.new decoder text
    else
      CrackResult.update_checker
        { CrackResult.new decoder text with unencrypted_text := some [decoded_text] }
        (checker decoded_text)

end Base58Ripple

namespace Base64

/-- The descriptor built by `Base64Decoder::new()` in `base64_decoder.rs`
(stored in the struct's `decoder` field; `crack` never reads it). -/
def decoder : Decoder :=
  { name := "base64"
    description := " Base64 is a group of binary-to-text encoding schemes that represent binary data (more specifically, a sequence of 8-bit bytes) in an ASCII string format by translating the data into a radix-64 representation."
    link := "https://en.wikipedia.org/wiki/Base64"
    tags := ["base64", "decoder", "baser"]
    popularity := 1.1
    expected_runtime := 0.01
    expected_success := 1.0
    failure_runtime := 0.01
    normalised_entropy := [1.0, 10.0] }

/-- The helper of `base64_decoder.rs`: decode the raw input (no padding
normalization) and convert the bytes to text strictly, so invalid UTF-8 makes
the whole helper return nothing. -/
def decode_base64_no_error_handling (text : String) : Option String :=
  match base64Decode text.data with
  | none => none
  | some inner => fromUtf8Strict inner

/-- The `crack` implementation of `base64_decoder.rs`.  In this snapshot the
`Crack` trait implemented here still has the old shape: it takes no checker
and returns `Option<String>` rather than a `CrackResult`. -/
def crack (text : String) : Option String :=
  match decode_base64_no_error_handling text with
  | none => none
  | some decoded_text =>
    if !(check_string_success decoded_text text) then none
    else some decoded_text

end Base64

/-- A concrete checker with a constant negative verdict, used to instantiate
universally quantified statements on concrete inputs. -/
def noopChecker : Checker :=
  fun _ => { is_identified := false, description := "", checker_name := "" }

/-- The plausibility filter accepts exactly the nonempty decodings that differ
from the original input. -/
theorem check_string_success_spec (d t : String) (h : check_string_success d t = true) :
    d ≠ "" ∧ d ≠ t := by
  unfold check_string_success at h
  by_cases h1 : d = ""
  · rw [if_pos h1] at h
    exact absurd h (by simp)
  · rw [if_neg h1] at h
    by_cases h2 : d = t
    · rw [if_pos h2] at h
      exact absurd h (by simp)
    · exact ⟨h1, h2⟩

/-- When the backend fails, Base32's crack returns the freshly constructed
record untouched. -/
theorem base32_crack_none (text : String) (chk : Checker)
    (h : Base32.decode_base32_no_error_handling text = none) :
    Base32.crack text chk = CrackResult.new Base32.decoder text := by
  unfold Base32.crack
  rw [h]

/-- When the filter rejects the decoding, Base32's crack returns the freshly
constructed record untouched. -/
theorem base32_crack_reject (text : String) (chk : Checker) (d : String)
    (h : Base32.decode_base32_no_error_handling text = some d)
    (hf : check_string_success d text = false) :
    Base32.crack text chk = CrackResult.new Base32.decoder text := by
  unfold Base32.crack
  rw [h]
  simp [hf]

/-- When the filter accepts the decoding, Base32's crack records the single
candidate and merges the checker's verdict on it. -/
theorem base32_crack_accept (text : String) (chk : Checker) (d : String)
    (h : Base32.decode_base32_no_error_handling text = some d)
    (hf : check_string_success d text = true) :
    Base32.crack text chk =
      { source_descriptor := "Base32"
        input_text := text
        unencrypted_text := some [d]
        is_identified := (chk d).is_identified
        matched_description := (chk d).description
        checker_name := (chk d).checker_name } := by
  unfold Base32.crack
  rw [h]
  simp [hf, CrackResult.new, CrackResult.update_checker, Base32.decoder]

/-- When the backend fails, Base58-Ripple's crack returns the freshly
constructed record untouched. -/
theorem base58_crack_none (text : String) (chk : Checker)
    (h : Base58Ripple.decode_base58_ripple_no_error_handling text = none) :
    Base58Ripple.crack text chk = CrackResult.new Base58Ripple.decoder text := by
  unfold Base58Ripple.crack
  rw [h]

/-- When the filter rejects the decoding, Base58-Ripple's crack returns the
freshly constructed record untouched. -/
theorem base58_crack_reject (text : String) (chk : Checker) (d : String)
    (h : Base58Ripple.decode_base58_ripple_no_error_handling text = some d)
    (hf : check_string_success d text = false) :
    Base58Ripple.crack text chk = CrackResult.new Base58Ripple.decoder text := by
  unfold Base58Ripple.crack
  rw [h]
  simp [hf]

/-- When the filter accepts the decoding, Base58-Ripple's crack records the
single candidate and merges the checker's verdict on it. -/
theorem base58_crack_accept (text : String) (chk : Checker) (d : String)
    (h : Base58Ripple.decode_base58_ripple_no_error_handling text = some d)
    (hf : check_string_success d text = true) :
    Base58Ripple.crack text chk =
      { source_descriptor := "base58_ripple"
        input_text := text
        unencrypted_text := some [d]
        is_identified := (chk d).is_identified
        matched_description := (chk d).description
        checker_name := (chk d).checker_name } := by
  unfold Base58Ripple.crack
  rw [h]
  simp [hf, CrackResult.new, CrackResult.update_checker, Base58Ripple.decoder]

/-- Base64's crack only answers with decodings that passed the filter. -/
theorem base64_crack_some (text d : String) (h : Base64.crack text = some d) :
    Base64.decode_base64_no_error_handling text = some d ∧
      check_string_success d text = true := by
  unfold Base64.crack at h
  cases hd : Base64.decode_base64_no_error_handling text with
  | none => rw [hd] at h; exact absurd h (by simp)
  | some d0 =>
    rw [hd] at h
    by_cases hf : check_string_success d0 text
    · simp [hf] at h
      subst h
      exact ⟨rfl, hf⟩
    · simp [hf] at h

/-- A successful decode-table scan preserves the symbol count. -/
theorem mapVals_length (f : Char → Option Nat) :
    ∀ (l : List Char) (vs : List Nat), mapVals f l = some vs → vs.length = l.length := by
  intro l
  induction l with
  | nil =>
    intro vs h
    simp [mapVals] at h
    simp [h]
  | cons c cs ih =>
    intro vs h
    unfold mapVals at h
    cases hfc : f c with
    | none => rw [hfc] at h; simp at h
    | some v =>
      cases hm : mapVals f cs with
      | none => rw [hfc, hm] at h; simp at h
      | some vs0 =>
        rw [hfc, hm] at h
        simp at h
        rw [← h]
        simp [ih vs0 hm]

/-- The fixed-width big-endian representation has exactly the requested
length. -/
theorem natToBytesBE_length : ∀ (k n : Nat), (natToBytesBE k n).length = k := by
  intro k
  induction k with
  | zero => intro n; rfl
  | succ k ih => intro n; simp [natToBytesBE, ih]

/-- Lossy UTF-8 decoding never produces more characters than there are input
bytes: every step consumes at least one byte and emits one character. -/
theorem utf8DecodeLossyAux_length_le :
    ∀ (fuel : Nat) (l : List Nat), (utf8DecodeLossyAux fuel l).length ≤ l.length := by
  intro fuel
  induction fuel with
  | zero => intro l; simp [utf8DecodeLossyAux]
  | succ fuel ih =>
    intro l
    cases l with
    | nil => simp [utf8DecodeLossyAux]
    | cons b rest =>
      unfold utf8DecodeLossyAux
      cases utf8Step b rest with
      | ok v k =>
        have h1 := ih (rest.drop k)
        have h2 : (rest.drop k).length ≤ rest.length := by
          rw [List.length_drop]; omega
        simp only [List.length_cons]
        omega
      | err k =>
        have h1 := ih (rest.drop k)
        have h2 : (rest.drop k).length ≤ rest.length := by
          rw [List.length_drop]; omega
        simp only [List.length_cons]
        omega

/-- A successful Base32 decode of `n` symbols yields exactly `5 * n / 8`
bytes. -/
theorem base32DecodeBytes_length (cs : List Char) (bytes : List Nat)
    (h : base32DecodeBytes cs = some bytes) : bytes.length = 5 * cs.length / 8 := by
  unfold base32DecodeBytes at h
  cases hm : mapVals base32CharVal cs with
  | none => rw [hm] at h; simp at h
  | some vals =>
    rw [hm] at h
    simp only at h
    split at h
    · simp at h
    · split at h
      · simp at h
        rw [← h, natToBytesBE_length, mapVals_length base32CharVal cs vals hm]
      · simp at h

/-- A nonempty Base32 decoding is strictly shorter (in characters) than the
padding-stripped input it came from. -/
theorem base32_decoded_shorter (text d : String)
    (h : Base32.decode_base32_no_error_handling text = some d) (hd : d ≠ "") :
    d.data.length < (removeEquals text).data.length := by
  unfold Base32.decode_base32_no_error_handling at h
  cases hb : base32DecodeBytes (removeEquals text).data with
  | none => rw [hb] at h; simp at h
  | some bytes =>
    rw [hb] at h
    simp only [Option.some.injEq] at h
    have hlen : bytes.length = 5 * (removeEquals text).data.length / 8 :=
      base32DecodeBytes_length _ _ hb
    have hle : d.data.length ≤ bytes.length := by
      rw [← h]
      exact utf8DecodeLossyAux_length_le bytes.length bytes
    have hdpos : 0 < d.data.length := by
      rcases Nat.eq_zero_or_pos d.data.length with h0 | hpos
      · exact absurd (String.ext (List.length_eq_zero.mp h0)) hd
      · exact hpos
    omega

/-- A nonempty Base32 decoding can match neither the padding-stripped input
nor the original input: it is strictly shorter than the stripped input, while
any string whose stripped form is the decode input is at least as long. -/
theorem base32_no_self (text d : String)
    (h : Base32.decode_base32_no_error_handling text = some d) (hd : d ≠ "") :
    d ≠ removeEquals text ∧ d ≠ text := by
  have hlt := base32_decoded_shorter text d h hd
  constructor
  · intro he
    rw [he] at hlt
    exact absurd hlt (lt_irrefl _)
  · intro he
    have hfil : (removeEquals text).data.length ≤ d.data.length := by
      rw [← he]
      exact List.length_filter_le _ d.data
    omega

/-- Removing every equals sign is idempotent. -/
theorem removeEquals_idem (text : String) :
    removeEquals (removeEquals text) = removeEquals text := by
  unfold removeEquals
  congr 1
  rw [List.filter_filter]
  congr 1
  funext c
  exact Bool.and_self _

/-- C1: for every scheme, every input string (including the empty string,
non-ASCII/multibyte strings such as a single emoji, and strings outside the
scheme's alphabet) and every checker, crack returns normally with an outcome.
In this embedding every crack is a total function; the theorem exhibits the
normal outcome: Base32 and Base58-Ripple always deliver a well-formed record
echoing the input and their descriptor, the emoji input is a routine
no-candidate outcome for all three schemes, and Base64's crack always
delivers one of its two outcome shapes. -/
theorem c1_crack_total_on_all_inputs (chk : Checker) (text : String) :
    (Base32.crack text chk).input_text = text ∧
    (Base32.crack text chk).source_descriptor = "Base32" ∧
    (Base58Ripple.crack text chk).input_text = text ∧
    (Base58Ripple.crack text chk).source_descriptor = "base58_ripple" ∧
    (Base32.crack "😂" chk).unencrypted_text = none ∧
    (Base58Ripple.crack "😂" chk).unencrypted_text = none ∧
    Base64.crack "😂" = none ∧
    (Base64.crack text = none ∨ ∃ s, Base64.crack text = some s) := by
  have h32 : (Base32.crack text chk).input_text = text ∧
      (Base32.crack text chk).source_descriptor = "Base32" := by
    cases h : Base32.decode_base32_no_error_handling text with
    | none => rw [base32_crack_none text chk h]; exact ⟨rfl, rfl⟩
    | some d =>
      cases hf : check_string_success d text with
      | false => rw [base32_crack_reject text chk d h hf]; exact ⟨rfl, rfl⟩
      | true => rw [base32_crack_accept text chk d h hf]; exact ⟨rfl, rfl⟩
  have h58 : (Base58Ripple.crack text chk).input_text = text ∧
      (Base58Ripple.crack text chk).source_descriptor = "base58_ripple" := by
    cases h : Base58Ripple.decode_base58_ripple_no_error_handling text with
    | none => rw [base58_crack_none text chk h]; exact ⟨rfl, rfl⟩
    | some d =>
      cases hf : check_string_success d text with
      | false => rw [base58_crack_reject text chk d h hf]; exact ⟨rfl, rfl⟩
      | true => rw [base58_crack_accept text chk d h hf]; exact ⟨rfl, rfl⟩
  have h64 : Base64.crack text = none ∨ ∃ s, Base64.crack text = some s := by
    cases h : Base64.crack text with
    | none => exact Or.inl rfl
    | some s => exact Or.inr ⟨s, rfl⟩
  exact ⟨h32.1, h32.2, h58.1, h58.2, rfl, rfl, rfl, h64⟩

/-- C2: the claim asks every scheme's crack to invoke the checker exactly when
the decode succeeds and the filter accepts, and to merge the verdict into the
record.  Base32 and Base58-Ripple do, but in this snapshot Base64's crack
takes no checker at all and returns a bare optional string: on the input below
the decode succeeds and the filter accepts, yet there is no checker invocation
and no record to merge a verdict into.  This theorem evaluates the code at
that failing input. -/
theorem c2_base64_crack_has_no_checker_eval :
    Base64.crack "aGVsbG8gd29ybGQ=" = some "hello world" := by
  rfl

/-- C3 (counterexample): Base64's helper converts decoded bytes to text
strictly rather than lossily.  On the input below the codec succeeds at the
byte level with a byte sequence that is not valid text, yet crack yields no
candidate at all instead of a candidate with a placeholder character. -/
theorem c3_base64_strict_counterexample :
    base64Decode ("/w==".data) = some [255] ∧
    fromUtf8Strict [255] = none ∧
    Base64.crack "/w==" = none := by
  exact ⟨by decide, by decide, by decide⟩

/-- C3 (amended): Base32 and Base58-Ripple lossily substitute undecodable byte
sequences with the placeholder character and forward that text to the
plausibility filter, recording it as the candidate when the filter accepts;
Base64 instead requires the decoded bytes to be valid text and yields no
candidate otherwise. -/
theorem c3_amended_lossy_fallback (chk : Checker) (text : String) (bytes : List Nat) :
    (base32DecodeBytes (removeEquals text).data = some bytes →
      check_string_success (fromUtf8Lossy bytes) text = true →
      (Base32.crack text chk).unencrypted_text = some [fromUtf8Lossy bytes]) ∧
    (base58DecodeBytes text.data = some bytes →
      check_string_success (fromUtf8Lossy bytes) text = true →
      (Base58Ripple.crack text chk).unencrypted_text = some [fromUtf8Lossy bytes]) ∧
    (base64Decode text.data = some bytes →
      fromUtf8Strict bytes = none →
      Base64.crack text = none) := by
  refine ⟨fun h hf => ?_, fun h hf => ?_, fun h hs => ?_⟩
  · have hd : Base32.decode_base32_no_error_handling text = some (fromUtf8Lossy bytes) := by
      unfold Base32.decode_base32_no_error_handling
      rw [h]
    rw [base32_crack_accept text chk _ hd hf]
  · have hd : Base58Ripple.decode_base58_ripple_no_error_handling text
        = some (fromUtf8Lossy bytes) := by
      unfold Base58Ripple.decode_base58_ripple_no_error_handling
      rw [h]
    rw [base58_crack_accept text chk _ hd hf]
  · have hd : Base64.decode_base64_no_error_handling text = none := by
      unfold Base64.decode_base64_no_error_handling
      rw [h]
      exact hs
    unfold Base64.crack
    rw [hd]

/-- Witness for the amended C3 on concrete inputs: `74` Base32-decodes to the
byte 255 and `nQ` Base58-Ripple-decodes to the byte 255, both yielding the
placeholder candidate, while the invalid-text Base64 input yields no
candidate. -/
theorem c3_amended_lossy_fallback_witness :
    (Base32.crack "74" noopChecker).unencrypted_text = some [fromUtf8Lossy [255]] ∧
    (Base58Ripple.crack "nQ" noopChecker).unencrypted_text = some [fromUtf8Lossy [255]] ∧
    Base64.crack "/w==" = none :=
  ⟨(c3_amended_lossy_fallback noopChecker "74" [255]).1 (by decide) (by decide),
   (c3_amended_lossy_fallback noopChecker "nQ" [255]).2.1 (by decide) (by decide),
   (c3_amended_lossy_fallback noopChecker "/w==" [255]).2.2 (by decide) (by decide)⟩

/-- C4: for every scheme and every checker, crack on the empty string yields
no candidate, even though the empty string is a technically valid encoding
under these alphabets (the backend decodes it to the empty byte sequence,
which the plausibility filter rejects). -/
theorem c4_empty_input_no_candidate (chk : Checker) :
    (Base32.crack "" chk).unencrypted_text = none ∧
    (Base58Ripple.crack "" chk).unencrypted_text = none ∧
    Base64.crack "" = none :=
  ⟨rfl, rfl, rfl⟩

/-- C5: for every scheme, every checker and every input, any candidate a crack
yields differs textually from the input, because the plausibility filter
rejects decodings identical to the original text before a candidate is
recorded. -/
theorem c5_candidate_never_input (chk : Checker) (text s : String) (l : List String) :
    ((Base32.crack text chk).unencrypted_text = some l → s ∈ l → s ≠ text) ∧
    ((Base58Ripple.crack text chk).unencrypted_text = some l → s ∈ l → s ≠ text) ∧
    (Base64.crack text = some s → s ≠ text) := by
  refine ⟨fun h hs => ?_, fun h hs => ?_, fun h => ?_⟩
  · cases hd : Base32.decode_base32_no_error_handling text with
    | none =>
      rw [base32_crack_none text chk hd] at h
      exact absurd h (by simp [CrackResult.new])
    | some d =>
      cases hf : check_string_success d text with
      | false =>
        rw [base32_crack_reject text chk d hd hf] at h
        exact absurd h (by simp [CrackResult.new])
      | true =>
        rw [base32_crack_accept text chk d hd hf] at h
        simp only [Option.some.injEq] at h
        rw [← h] at hs
        simp at hs
        rw [hs]
        exact (check_string_success_spec d text hf).2
  · cases hd : Base58Ripple.decode_base58_ripple_no_error_handling text with
    | none =>
      rw [base58_crack_none text chk hd] at h
      exact absurd h (by simp [CrackResult.new])
    | some d =>
      cases hf : check_string_success d text with
      | false =>
        rw [base58_crack_reject text chk d hd hf] at h
        exact absurd h (by simp [CrackResult.new])
      | true =>
        rw [base58_crack_accept text chk d hd hf] at h
        simp only [Option.some.injEq] at h
        rw [← h] at hs
        simp at hs
        rw [hs]
        exact (check_string_success_spec d text hf).2
  · exact (check_string_success_spec s text (base64_crack_some text s h).2).2

/-- Witness for C5 at concrete inputs on which Base64 and Base32 actually
yield the candidate `hello world`. -/
theorem c5_candidate_never_input_witness :
    ("hello world" : String) ≠ "aGVsbG8gd29ybGQ=" ∧
    ("hello world" : String) ≠ "NBSWY3DPEB3W64TMMQ======" :=
  ⟨(c5_candidate_never_input noopChecker "aGVsbG8gd29ybGQ=" "hello world" []).2.2
      (by decide),
   (c5_candidate_never_input noopChecker "NBSWY3DPEB3W64TMMQ======" "hello world"
      ["hello world"]).1 (by decide) (by decide)⟩

/-- C6: the spec's round-trip scenarios.  Base32 on its encoding of
`hello world`, Base58-Ripple on `StVrDLaUATiyKyV` and Base64 on
`aGVsbG8gd29ybGQ=` all yield the candidate `hello world`, for every
checker. -/
theorem c6_round_trip_scenarios (chk : Checker) :
    (Base32.crack "NBSWY3DPEB3W64TMMQ======" chk).unencrypted_text = some ["hello world"] ∧
    (Base58Ripple.crack "StVrDLaUATiyKyV" chk).unencrypted_text = some ["hello world"] ∧
    Base64.crack "aGVsbG8gd29ybGQ=" = some "hello world" :=
  ⟨rfl, rfl, rfl⟩

/-- C7: Base32's crack tolerates any padding-character count: the input with
two equals signs where four would be canonical still decodes to
`Incorrect padding`, and the input with no padding at all decodes to
`This has zero padding`. -/
theorem c7_base32_padding_tolerance (chk : Checker) :
    (Base32.crack "JFXGG33SOJSWG5BAOBQWIZDJNZTQ==" chk).unencrypted_text
      = some ["Incorrect padding"] ∧
    (Base32.crack "KRUGS4ZANBQXGID2MVZG6IDQMFSGI2LOM4" chk).unencrypted_text
      = some ["This has zero padding"] :=
  ⟨rfl, rfl⟩

/-- C8: merging the same checker verdict into an Outcome Record twice leaves
the record identical to merging it once, and the merge alters neither the
input text, nor the source descriptor, nor any candidate already set. -/
theorem c8_update_checker_idempotent (r : CrackResult) (v : CheckResult) :
    CrackResult.update_checker (CrackResult.update_checker r v) v
      = CrackResult.update_checker r v ∧
    (CrackResult.update_checker r v).input_text = r.input_text ∧
    (CrackResult.update_checker r v).source_descriptor = r.source_descriptor ∧
    (CrackResult.update_checker r v).unencrypted_text = r.unencrypted_text :=
  ⟨rfl, rfl, rfl, rfl⟩

/-- C9: Base32's preprocessing removes every equals sign anywhere in the
input, so crack behaves identically on a text and on the text with all equals
signs deleted: the resulting records agree on every field except the verbatim
echo of the invoked input in `input_text`. -/
theorem c9_base32_equals_insensitive (chk : Checker) (text : String) :
    Base32.crack (removeEquals text) chk
      = { Base32.crack text chk with input_text := removeEquals text } := by
  have hdec : Base32.decode_base32_no_error_handling (removeEquals text)
      = Base32.decode_base32_no_error_handling text := by
    unfold Base32.decode_base32_no_error_handling
    rw [removeEquals_idem]
  cases h : Base32.decode_base32_no_error_handling text with
  | none =>
    rw [base32_crack_none (removeEquals text) chk (hdec.trans h),
      base32_crack_none text chk h]
    rfl
  | some d =>
    by_cases hd : d = ""
    · have hf1 : check_string_success d (removeEquals text) = false := by
        rw [hd]; rfl
      have hf2 : check_string_success d text = false := by
        rw [hd]; rfl
      rw [base32_crack_reject (removeEquals text) chk d (hdec.trans h) hf1,
        base32_crack_reject text chk d h hf2]
      rfl
    · obtain ⟨hns, hnt⟩ := base32_no_self text d h hd
      have hf1 : check_string_success d (removeEquals text) = true := by
        unfold check_string_success
        rw [if_neg hd, if_neg hns]
      have hf2 : check_string_success d text = true := by
        unfold check_string_success
        rw [if_neg hd, if_neg hnt]
      rw [base32_crack_accept (removeEquals text) chk d (hdec.trans h) hf1,
        base32_crack_accept text chk d h hf2]

/-- C10 (counterexample): the claim predicts that the unpadded input
`aGVsbG8gd29ybGQ` yields no candidate, but the 0.13-era Base64 backend the
source calls accepts missing padding on decode, so crack yields the candidate
`hello world` there. -/
theorem c10_unpadded_still_decodes_counterexample :
    Base64.crack "aGVsbG8gd29ybGQ" = some "hello world" := by
  rfl

/-- C10 (amended): Base64's crack performs no padding normalization — the raw
input reaches the backend, so deleting the stray padding by hand changes the
outcome — and there is an input that is a valid Base64 encoding except for an
incorrect padding count (an extra equals sign making the length 1 mod 4) for
which crack yields no candidate. -/
theorem c10_no_padding_normalization :
    Base64.crack "aGVsbG8gd29ybGQ==" = none ∧
    Base64.crack (removeEquals "aGVsbG8gd29ybGQ==") = some "hello world" :=
  ⟨rfl, rfl⟩

end Ares
